import Mathlib

/-!
Verification of the ska-src-astroquery repository's core behaviours.

Part I models the VO Service Catalog registry (`VOSCatalog` / `VOSDatabase`).
The registry implementation itself (`astroquery/vo_conesearch/vos_catalog.py`)
is not among the provided source files — only its test suite is — so the
registry definitions below are modelled from the specification's description
of the data model and operations, and checked against the behaviours the
test suite (`test_vos_catalog.py`) pins down.

Part II embeds the dispatch logic of `SRCNetClass.query_region` and the
access-token / session-header bookkeeping of `SRCNetClass`, both taken
directly from `astroquery/srcnet/core.py`.
-/

namespace VOS

/-- JSON-compatible leaf values stored in catalog fields and auxiliary
database fields (strings, integers, lists of strings cover everything the
registry's data files use). -/
inductive LeafVal where
  | str (s : String)
  | num (n : Int)
  | strList (l : List String)
deriving DecidableEq, Repr

/-- A catalog is a mapping from string keys to values; modelled as an
insertion-ordered association list (a Python `dict`). -/
abbrev Catalog := List (String × LeafVal)

/-- Values of the raw top-level tree handed to the `VOSDatabase`
constructor: either a leaf value (e.g. `__version__`, `content`) or the
`catalogs` table mapping names to catalog bodies. -/
inductive TreeVal where
  | leaf (v : LeafVal)
  | table (m : List (String × Catalog))
deriving DecidableEq, Repr

/-- The raw mapping from which a database is constructed. -/
abbrev Tree := List (String × TreeVal)

/-- The registry's error taxonomy, as laid out in the spec's error-handling
design (structural, missing catalog, duplicate name, duplicate url,
protected key, persistence, version mismatch), plus the key-absent and
file-absent failures surfaced by the underlying runtime. -/
inductive VOSErr where
  | structural
  | missingCatalog
  | duplicateName
  | duplicateURL
  | protectedKey
  | missingKey
  | persistence
  | versionMismatch
  | missingFile
deriving DecidableEq, Repr

/-- First-match association-list lookup (Python `dict` access). -/
def alookup (k : String) : List (String × α) → Option α
  | [] => none
  | p :: rest => if p.1 = k then some p.2 else alookup k rest

/-- Remove the first entry with the given key (Python `del d[k]`;
dictionaries hold at most one entry per key). -/
def aerase (k : String) : List (String × α) → List (String × α)
  | [] => []
  | p :: rest => if p.1 = k then rest else p :: aerase k rest

/-- Modelled from the spec: `VOSCatalog.create(title, url, **kwargs)` —
a new catalog record with `title`, `url` and the extra key/value pairs
merged in. -/
def VOSCatalog.create (title url : String) (extras : List (String × LeafVal)) : Catalog :=
  ("title", .str title) :: ("url", .str url) :: extras

/-- Modelled from the spec: `VOSCatalog.delete_attribute(key)` — removes
`key` unless it is `title` or `url`, in which case it fails with a
protected-key error; an absent key fails with the runtime's missing-key
error. -/
def delete_attribute (c : Catalog) (key : String) : Except VOSErr Catalog :=
  if key = "title" ∨ key = "url" then .error .protectedKey
  else if (alookup key c).isSome then .ok (aerase key c)
  else .error .missingKey

/-- The `url` field of a catalog when both reserved fields are present with
string values; `none` when the catalog is not a valid catalog record. -/
def catalogShape (c : Catalog) : Option String :=
  match alookup "title" c, alookup "url" c with
  | some (.str _), some (.str u) => some u
  | _, _ => none

/-- Modelled from the spec: a `VOSDatabase` — a versioned, ordered collection
of named catalogs, the auxiliary `content` field preserved verbatim, and the
derived url → ordered-set-of-names index. -/
structure VOSDatabase where
  version : Int
  content : Option TreeVal
  catalogs : List (String × Catalog)
  url_keys : List (String × List String)
deriving DecidableEq, Repr

/-- Modelled from the spec: `VOSDatabase.create_empty()` — version 1, no
catalogs, no content. -/
def create_empty : VOSDatabase := ⟨1, none, [], []⟩

/-- Record `name` under `url` in the url index, appending to the binding
list of an existing key or appending a fresh key at the end. -/
def indexAdd (idx : List (String × List String)) (u n : String) :
    List (String × List String) :=
  if (alookup u idx).isSome then
    idx.map (fun p => if p.1 = u then (p.1, p.2 ++ [n]) else p)
  else idx ++ [(u, [n])]

/-- Remove `name` from `url`'s binding list in the url index; the key itself
is kept even when its list becomes empty. -/
def indexRemove (idx : List (String × List String)) (u n : String) :
    List (String × List String) :=
  idx.map (fun p => if p.1 = u then (p.1, p.2.erase n) else p)

/-- The url index rebuilt from scratch out of the catalogs mapping
(registry insertion order). -/
def buildIndex (cats : List (String × Catalog)) : List (String × List String) :=
  cats.foldl (fun idx p => indexAdd idx ((catalogShape p.2).getD "") p.1) []

/-- The ordered list of names currently bound to `url` in the index
(empty when the url was never registered). -/
def urlNames (d : VOSDatabase) (u : String) : List String :=
  (alookup u d.url_keys).getD []

/-- Modelled from the spec: the `VOSDatabase(tree)` constructor — fails with
a structural error when the tree lacks a `catalogs` table or some entry
under it is not a valid catalog (with string `title` and `url`); on success
reads `__version__` (fresh databases have version 1), keeps `content`
verbatim, and rebuilds the url index from the catalogs. -/
def fromTree (tree : Tree) : Except VOSErr VOSDatabase :=
  match alookup "catalogs" tree with
  | some (.table cats) =>
    if cats.all (fun p => (catalogShape p.2).isSome) then
      .ok { version := match alookup "__version__" tree with
                       | some (.leaf (.num v)) => v
                       | _ => 1,
            content := alookup "content" tree,
            catalogs := cats,
            url_keys := buildIndex cats }
    else .error .structural
  | _ => .error .structural

/-- The serialized form of a database: `__version__`, `catalogs` and (when
present) the `content` field. -/
def toTree (d : VOSDatabase) : Tree :=
  ("__version__", .leaf (.num d.version)) :: ("catalogs", .table d.catalogs) ::
    (match d.content with
     | some v => [("content", v)]
     | none => [])

/-- Modelled from the spec: `add_catalog(name, catalog)` — duplicate-name
error when `name` exists, structural (not-a-catalog) error when the record
lacks the required shape, duplicate-url error when another catalog already
holds the same url and no duplicate-url override was given; otherwise the
entry is appended and the url index updated. -/
def add_catalog (d : VOSDatabase) (name : String) (cat : Catalog)
    (allow_duplicate_url : Bool) : Except VOSErr VOSDatabase :=
  if (alookup name d.catalogs).isSome then .error .duplicateName
  else match catalogShape cat with
  | none => .error .structural
  | some u =>
    if !allow_duplicate_url && !(urlNames d u).isEmpty then .error .duplicateURL
    else .ok { d with catalogs := d.catalogs ++ [(name, cat)],
                      url_keys := indexAdd d.url_keys u name }

/-- Modelled from the spec: `add_catalog_by_url(name, url,
allow_duplicate_url)` — builds the minimal catalog and inserts it. -/
def add_catalog_by_url (d : VOSDatabase) (name url : String)
    (allow_duplicate_url : Bool) : Except VOSErr VOSDatabase :=
  add_catalog d name (VOSCatalog.create name url []) allow_duplicate_url

/-- Modelled from the spec: `get_catalog_by_url(url)` — the first catalog in
registry insertion order whose url equals the argument, or a
missing-catalog error. -/
def get_catalog_by_url (d : VOSDatabase) (u : String) :
    Except VOSErr (String × Catalog) :=
  match d.catalogs.find? (fun p => catalogShape p.2 == some u) with
  | some p => .ok p
  | none => .error .missingCatalog

/-- Modelled from the spec: `get_catalogs_by_url(url)` — the (name, catalog)
pairs for every catalog bound to `url`, in url-index binding order. -/
def get_catalogs_by_url (d : VOSDatabase) (u : String) :
    List (String × Catalog) :=
  (urlNames d u).filterMap (fun n => (alookup n d.catalogs).map ((n, ·)))

/-- Modelled from the spec: `delete_catalog(name)` — removes the named entry
and removes `name` from its url's binding list (keeping the key, possibly
with an empty list); missing-catalog error when `name` is absent. -/
def delete_catalog (d : VOSDatabase) (name : String) : Except VOSErr VOSDatabase :=
  match alookup name d.catalogs with
  | none => .error .missingCatalog
  | some c =>
    .ok { d with catalogs := aerase name d.catalogs,
                 url_keys := indexRemove d.url_keys ((catalogShape c).getD "") name }

/-- Modelled from the spec: `delete_catalog_by_url(url)` — resolves a name via
`get_catalog_by_url` (the first match) and delegates to `delete_catalog`. -/
def delete_catalog_by_url (d : VOSDatabase) (u : String) : Except VOSErr VOSDatabase :=
  match get_catalog_by_url d u with
  | .error e => .error e
  | .ok p => delete_catalog d p.1

/-- Sort a list of strings (the registry's deterministic listing order). -/
def sortStrings (l : List String) : List String :=
  l.insertionSort (· ≤ ·)

/-- Modelled from the spec: `list_catalogs()` — all catalog names, sorted. -/
def list_catalogs (d : VOSDatabase) : List String :=
  sortStrings (d.catalogs.map Prod.fst)

/-- Modelled from the spec: `list_catalogs_by_url()` — the registered urls
(urls currently held by at least one catalog), sorted. -/
def list_catalogs_by_url (d : VOSDatabase) : List String :=
  sortStrings (d.catalogs.filterMap (fun p => catalogShape p.2)).dedup

/-- A merge argument: either a genuine database or an arbitrary non-database
value (Python lets any object be passed where a database is expected). -/
inductive DBArg where
  | db (d : VOSDatabase)
  | raw (v : LeafVal)

/-- Modelled from the spec: `merge(other)` — structural (not-a-database)
error for a non-database argument, version-mismatch error for differing
versions, duplicate-name/duplicate-url errors for collisions between the
two operands; otherwise a new database with the catalogs of `self` followed
by those of `other` and the url index extended accordingly. Operands are
never mutated. -/
def merge (a : VOSDatabase) (arg : DBArg) : Except VOSErr VOSDatabase :=
  match arg with
  | .raw _ => .error .structural
  | .db b =>
    if a.version ≠ b.version then .error .versionMismatch
    else if b.catalogs.any (fun p => (alookup p.1 a.catalogs).isSome) then
      .error .duplicateName
    else if b.catalogs.any
        (fun p => (catalogShape p.2).any (fun u => !(urlNames a u).isEmpty)) then
      .error .duplicateURL
    else .ok { version := a.version, content := a.content,
               catalogs := a.catalogs ++ b.catalogs,
               url_keys := b.catalogs.foldl
                 (fun idx p => indexAdd idx ((catalogShape p.2).getD "") p.1)
                 a.url_keys }

/-- The registry's file system, for JSON persistence: a mapping from path to
the parsed tree stored there (JSON printing/parsing is faithful and
external). -/
abbrev FileSys := List (String × Tree)

/-- Store a tree at a path, replacing an existing file or creating it. -/
def setFile (fs : FileSys) (p : String) (t : Tree) : FileSys :=
  if (alookup p fs).isSome then
    fs.map (fun q => if q.1 = p then (q.1, t) else q)
  else fs ++ [(p, t)]

/-- Modelled from the spec: `to_json(path, overwrite)` — persistence error
when the path exists and `overwrite` is false; otherwise writes the
serialized tree. -/
def to_json (d : VOSDatabase) (path : String) (overwrite : Bool)
    (fs : FileSys) : Except VOSErr FileSys :=
  if (alookup path fs).isSome && !overwrite then .error .persistence
  else .ok (setFile fs path (toTree d))

/-- Modelled from the spec: `from_json(path)` — reads the tree stored at
`path` (an I/O failure when absent) and delegates to the constructor. -/
def from_json (path : String) (fs : FileSys) : Except VOSErr VOSDatabase :=
  match alookup path fs with
  | none => .error .missingFile
  | some t => fromTree t

/-- Well-formedness every reachable Python database enjoys: catalog names
are unique (`dict` keys), url-index keys are unique, and every name recorded
in a url binding denotes an existing catalog. -/
def WF (d : VOSDatabase) : Prop :=
  (d.catalogs.map Prod.fst).Nodup ∧ (d.url_keys.map Prod.fst).Nodup ∧
    ∀ p ∈ d.url_keys, ∀ n ∈ p.2, (alookup n d.catalogs).isSome

instance (d : VOSDatabase) : Decidable (WF d) := by
  unfold WF; infer_instance

end VOS

namespace SRCNet

/-- Python truthiness of an optional numeric argument (`None` and `0` are
falsy), as used by `query_region`'s `if`/`all` tests on `radius`, `width`
and `height`. -/
def truthy : Option ℚ → Bool
  | none => false
  | some x => decide (x ≠ 0)

/-- Outcome of `SRCNetClass.query_region`'s search-area dispatch: one of the
two raised errors, or the ADQL query actually built (circle queries carry
the radius in arcmin, box queries the width and height in arcmin). -/
inductive QueryRegionResult where
  | ambiguousError
  | circleQuery (radiusArcmin : ℚ)
  | boxQuery (widthArcmin heightArcmin : ℚ)
  | undefinedError
deriving DecidableEq, Repr

/-- The search-area dispatch of `SRCNetClass.query_region`
(`astroquery/srcnet/core.py`): `QueryRegionSearchAreaAmbiguous` when
`all([radius, width, height])`; else the circular query when `radius` is
truthy; else the box query when `width and height`; else
`QueryRegionSearchAreaUndefined`. Degree arguments are converted to arcmin
(× 60) when the query is built. -/
def query_region (radius width height : Option ℚ) : QueryRegionResult :=
  if truthy radius && truthy width && truthy height then .ambiguousError
  else if truthy radius then .circleQuery (60 * radius.getD 0)
  else if truthy width && truthy height then
    .boxQuery (60 * width.getD 0) (60 * height.getD 0)
  else .undefinedError

/-- The token-related state of a `SRCNetClass` instance: the stored tokens
(possibly `None`) and the `Authorization` header of its `requests` session. -/
structure SRCNetState where
  access_token : Option String
  refresh_token : Option String
  session_auth : Option String
deriving DecidableEq, Repr

/-- Python's `str()` rendering of an optional string, as produced by
`"Bearer \x7b\x7d".format(...)` on a possibly-`None` token. -/
def pyStr (o : Option String) : String := o.getD "None"

/-- Embeds `SRCNetClass._update_authorisation_requests_session`: sets the
session's `Authorization` header to `Bearer ` followed by the rendered
token. -/
def updateAuthorisationSession (s : SRCNetState) : SRCNetState :=
  { s with session_auth := some ("Bearer " ++ pyStr s.access_token) }

/-- Embeds `SRCNetClass.__init__` after token resolution (constructor
argument, environment, or persisted file — an external concern): stores the
tokens into a fresh session and immediately installs the bearer header. -/
def srcnetInit (tok rtok : Option String) : SRCNetState :=
  updateAuthorisationSession
    { access_token := tok, refresh_token := rtok, session_auth := none }

/-- The `access_token` property setter: stores the new token and refreshes
the session's bearer header. -/
def set_access_token (s : SRCNetState) (new : Option String) : SRCNetState :=
  updateAuthorisationSession { s with access_token := new }

/-- The invariant claimed of every instance: the session's `Authorization`
header is exactly `Bearer ` followed by the current access token. -/
def authSynced (s : SRCNetState) : Prop :=
  s.session_auth = some ("Bearer " ++ pyStr s.access_token)

end SRCNet

namespace VOS

theorem alookup_aerase_ne {k k' : String} (h : k' ≠ k) :
    ∀ l : List (String × α), alookup k' (aerase k l) = alookup k' l := by
  intro l
  induction l with
  | nil => rfl
  | cons p rest ih =>
    by_cases hp : p.1 = k
    · simp only [aerase, alookup, if_pos hp]
      rw [if_neg (by rw [hp]; exact fun e => h e.symm)]
    · simp only [aerase, alookup, if_neg hp]
      by_cases hp' : p.1 = k'
      · simp [alookup, hp']
      · simp [alookup, hp', ih]

theorem alookup_eq_none_of_not_mem_keys {k : String} :
    ∀ {l : List (String × α)}, k ∉ l.map Prod.fst → alookup k l = none := by
  intro l
  induction l with
  | nil => intro _; rfl
  | cons p rest ih =>
    intro h
    simp only [List.map_cons, List.mem_cons, not_or] at h
    have hp : p.1 ≠ k := fun e => h.1 e.symm
    simp only [alookup, if_neg hp]
    exact ih h.2

theorem alookup_aerase_self {k : String} :
    ∀ l : List (String × α), (l.map Prod.fst).Nodup →
      alookup k (aerase k l) = none := by
  intro l
  induction l with
  | nil => intro _; rfl
  | cons p rest ih =>
    intro hnd
    simp only [List.map_cons, List.nodup_cons] at hnd
    by_cases hp : p.1 = k
    · simp only [aerase, if_pos hp]
      exact alookup_eq_none_of_not_mem_keys (hp ▸ hnd.1)
    · simp only [aerase, if_neg hp, alookup, if_neg hp]
      exact ih hnd.2

theorem alookup_isSome_of_mem {k : String} {v : α} :
    ∀ {l : List (String × α)}, (k, v) ∈ l → (alookup k l).isSome := by
  intro l
  induction l with
  | nil => intro h; cases h
  | cons p rest ih =>
    intro h
    rcases List.mem_cons.mp h with h1 | h2
    · simp [alookup, ← h1]
    · by_cases hp : p.1 = k
      · simp [alookup, hp]
      · simp only [alookup, if_neg hp]
        exact ih h2

theorem alookup_append (k : String) (l₁ l₂ : List (String × α)) :
    alookup k (l₁ ++ l₂) =
      match alookup k l₁ with
      | some v => some v
      | none => alookup k l₂ := by
  induction l₁ with
  | nil => rfl
  | cons p rest ih =>
    by_cases hp : p.1 = k
    · simp [alookup, hp]
    · simp [alookup, hp, ih]

theorem alookup_map_if_self (u : String) (f : β → β) :
    ∀ idx : List (String × β),
      alookup u (idx.map fun p => if p.1 = u then (p.1, f p.2) else p) =
        (alookup u idx).map f := by
  intro idx
  induction idx with
  | nil => rfl
  | cons p rest ih =>
    by_cases hp : p.1 = u
    · simp [alookup, hp]
    · simp [alookup, hp, ih]

theorem alookup_map_if_ne {u u' : String} (h : u' ≠ u) (f : β → β) :
    ∀ idx : List (String × β),
      alookup u' (idx.map fun p => if p.1 = u then (p.1, f p.2) else p) =
        alookup u' idx := by
  intro idx
  induction idx with
  | nil => rfl
  | cons p rest ih =>
    by_cases hp : p.1 = u
    · have hne : ¬(u = u') := fun e => h e.symm
      simp [alookup, hp, hne, ih]
    · simp only [List.map_cons, if_neg hp, alookup]
      by_cases hp' : p.1 = u'
      · simp [hp']
      · simp [hp', ih]

theorem alookup_indexAdd_self (idx : List (String × List String)) (u n : String) :
    alookup u (indexAdd idx u n) = some ((alookup u idx).getD [] ++ [n]) := by
  unfold indexAdd
  cases h : alookup u idx with
  | some ns =>
    rw [if_pos (by simp [h])]
    rw [alookup_map_if_self u (· ++ [n]) idx, h]
    rfl
  | none =>
    rw [if_neg (by simp [h])]
    rw [alookup_append, h]
    simp [alookup]

theorem alookup_indexAdd_ne {u u' : String} (h : u' ≠ u)
    (idx : List (String × List String)) (n : String) :
    alookup u' (indexAdd idx u n) = alookup u' idx := by
  unfold indexAdd
  by_cases hs : (alookup u idx).isSome
  · rw [if_pos hs]
    exact alookup_map_if_ne h (· ++ [n]) idx
  · rw [if_neg hs]
    rw [alookup_append]
    cases hl : alookup u' idx with
    | some v => rfl
    | none =>
      have hne : ¬(u = u') := fun e => h e.symm
      simp [alookup, hne]

theorem alookup_indexRemove_self (idx : List (String × List String)) (u n : String) :
    alookup u (indexRemove idx u n) = (alookup u idx).map (fun l => l.erase n) := by
  unfold indexRemove
  exact alookup_map_if_self u (fun l => List.erase l n) idx

theorem mem_aerase_of_ne {k : String} {p : String × α} (hne : p.1 ≠ k) :
    ∀ {l : List (String × α)}, p ∈ l → p ∈ aerase k l := by
  intro l
  induction l with
  | nil => intro h; cases h
  | cons q rest ih =>
    intro h
    by_cases hq : q.1 = k
    · simp only [aerase, if_pos hq]
      rcases List.mem_cons.mp h with h1 | h2
      · exact absurd (h1 ▸ hq) hne
      · exact h2
    · simp only [aerase, if_neg hq]
      rcases List.mem_cons.mp h with h1 | h2
      · exact h1 ▸ List.mem_cons_self _ _
      · exact List.mem_cons_of_mem _ (ih h2)

theorem aerase_length {k : String} :
    ∀ {l : List (String × α)}, (alookup k l).isSome →
      (aerase k l).length + 1 = l.length := by
  intro l
  induction l with
  | nil => intro h; simp [alookup] at h
  | cons p rest ih =>
    intro h
    by_cases hp : p.1 = k
    · simp [aerase, hp]
    · simp only [alookup, if_neg hp] at h
      simp [aerase, hp, ih h]

theorem sortStrings_append (x y : List String) :
    sortStrings (sortStrings x ++ sortStrings y) = sortStrings (x ++ y) := by
  unfold sortStrings
  apply List.eq_of_perm_of_sorted (r := fun a b : String => a ≤ b)
  · exact (List.perm_insertionSort _ _).trans
      (((List.perm_insertionSort _ _).append (List.perm_insertionSort _ _)).trans
        (List.perm_insertionSort _ _).symm)
  · exact List.sorted_insertionSort _ _
  · exact List.sorted_insertionSort _ _

theorem mem_of_alookup_eq_some {k : String} {v : α} :
    ∀ {l : List (String × α)}, alookup k l = some v → (k, v) ∈ l := by
  intro l
  induction l with
  | nil => intro h; cases h
  | cons p rest ih =>
    intro h
    obtain ⟨a, b⟩ := p
    by_cases hp : a = k
    · simp only [alookup, if_pos hp] at h
      subst hp
      have hb : b = v := Option.some.inj h
      subst hb
      exact List.mem_cons_self _ _
    · simp only [alookup, if_neg hp] at h
      exact List.mem_cons_of_mem _ (ih h)

theorem catalogShape_create (t u : String) (e : List (String × LeafVal)) :
    catalogShape (VOSCatalog.create t u e) = some u := by
  simp [catalogShape, VOSCatalog.create, alookup]

/-- C1: on a database whose url index may hold the same url for several
catalogs, `delete_catalog_by_url` removes exactly one entry — the first
match in registry insertion order — leaving every other entry in place, and
fails with the missing-catalog error when no catalog has the url. -/
theorem c1_delete_catalog_by_url_first_match (d : VOSDatabase) (u : String) :
    ((d.catalogs.map Prod.fst).Nodup →
      ∀ n c, d.catalogs.find? (fun p => catalogShape p.2 == some u) = some (n, c) →
        ∃ d', delete_catalog_by_url d u = .ok d' ∧
          d'.catalogs = aerase n d.catalogs ∧
          d'.catalogs.length + 1 = d.catalogs.length ∧
          ∀ p ∈ d.catalogs, p.1 ≠ n → p ∈ d'.catalogs) ∧
    (d.catalogs.find? (fun p => catalogShape p.2 == some u) = none →
      delete_catalog_by_url d u = .error .missingCatalog) := by
  constructor
  · intro _ n c hfind
    have hmem : (n, c) ∈ d.catalogs := List.mem_of_find?_eq_some hfind
    have hsome : (alookup n d.catalogs).isSome := alookup_isSome_of_mem hmem
    unfold delete_catalog_by_url get_catalog_by_url
    rw [hfind]
    unfold delete_catalog
    dsimp only
    cases hl : alookup n d.catalogs with
    | none => rw [hl] at hsome; simp at hsome
    | some c0 =>
      dsimp only
      refine ⟨_, rfl, rfl, aerase_length hsome, ?_⟩
      intro p hp hne
      exact mem_aerase_of_ne hne hp
  · intro hfind
    unfold delete_catalog_by_url get_catalog_by_url
    rw [hfind]

/-- C8: `delete_catalog` on a bound name removes the entry from the name
map and removes the name from its url's binding in the url index, keeping
the url key itself — when the name was the url's last binding the url still
resolves to an empty, iterable result instead of a missing-catalog error —
and `delete_catalog` of an absent name fails with the missing-catalog
error. -/
theorem c8_delete_catalog_url_index (d : VOSDatabase) (n : String) :
    (∀ c u, alookup n d.catalogs = some c → catalogShape c = some u →
      ∃ d', delete_catalog d n = .ok d' ∧
        d'.catalogs = aerase n d.catalogs ∧
        alookup u d'.url_keys = (alookup u d.url_keys).map (fun l => l.erase n) ∧
        (alookup u d.url_keys = some [n] →
          alookup u d'.url_keys = some [] ∧ get_catalogs_by_url d' u = [])) ∧
    (alookup n d.catalogs = none → delete_catalog d n = .error .missingCatalog) := by
  constructor
  · intro c u hc hu
    unfold delete_catalog
    rw [hc]
    dsimp only
    rw [hu]
    simp only [Option.getD_some]
    refine ⟨_, rfl, rfl, ?_, ?_⟩
    · exact alookup_indexRemove_self d.url_keys u n
    · intro hone
      have hidx : alookup u (indexRemove d.url_keys u n) = some [] := by
        rw [alookup_indexRemove_self, hone]
        simp
      refine ⟨hidx, ?_⟩
      unfold get_catalogs_by_url urlNames
      rw [hidx]
      rfl
  · intro h
    unfold delete_catalog
    rw [h]

/-- C5: adding a catalog under an existing name fails with the
duplicate-name error whatever the duplicate-url override; adding a catalog
whose url is already held by another catalog fails with the duplicate-url
error when the override is off; and `add_catalog_by_url` with
`allow_duplicate_url` on succeeds, after which the new catalog is present
and both catalogs appear under `get_catalogs_by_url` for that url. -/
theorem c5_add_catalog_duplicate_rules (d : VOSDatabase) (name : String)
    (cat : Catalog) (u : String) :
    ((alookup name d.catalogs).isSome →
      ∀ b, add_catalog d name cat b = .error .duplicateName) ∧
    (alookup name d.catalogs = none → catalogShape cat = some u →
      urlNames d u ≠ [] → add_catalog d name cat false = .error .duplicateURL) ∧
    (alookup name d.catalogs = none →
      (∀ p ∈ d.url_keys, ∀ m ∈ p.2, (alookup m d.catalogs).isSome) →
      ∃ d', add_catalog_by_url d name u true = .ok d' ∧
        alookup name d'.catalogs = some (VOSCatalog.create name u []) ∧
        get_catalogs_by_url d' u =
          get_catalogs_by_url d u ++ [(name, VOSCatalog.create name u [])]) := by
  refine ⟨?_, ?_, ?_⟩
  · intro h b
    unfold add_catalog
    rw [if_pos h]
  · intro h1 h2 h3
    unfold add_catalog
    rw [if_neg (by simp [h1]), h2]
    dsimp only
    have he : (urlNames d u).isEmpty = false := by
      cases hl : urlNames d u with
      | nil => exact absurd hl h3
      | cons a l => rfl
    rw [if_pos (by simp [he])]
  · intro h1 hwf
    have hnew : alookup name (d.catalogs ++ [(name, VOSCatalog.create name u [])])
        = some (VOSCatalog.create name u []) := by
      rw [alookup_append, h1]
      simp [alookup]
    unfold add_catalog_by_url add_catalog
    rw [if_neg (by simp [h1]), catalogShape_create]
    dsimp only
    rw [if_neg (by simp)]
    refine ⟨_, rfl, hnew, ?_⟩
    unfold get_catalogs_by_url urlNames
    dsimp only
    rw [alookup_indexAdd_self]
    simp only [Option.getD_some]
    rw [List.filterMap_append]
    congr 1
    · apply List.filterMap_congr
      intro m hm
      have hmsome : (alookup m d.catalogs).isSome := by
        cases hl : alookup u d.url_keys with
        | none => rw [hl] at hm; cases hm
        | some ns =>
          rw [hl] at hm
          exact hwf (u, ns) (mem_of_alookup_eq_some hl) m hm
      rw [alookup_append]
      cases hml : alookup m d.catalogs with
      | none => rw [hml] at hmsome; simp at hmsome
      | some cm => rfl
    · simp [hnew]

/-- C6: the `VOSDatabase` constructor fails with a structural error when
the raw mapping lacks a `catalogs` key, fails with a structural error when
some entry under `catalogs` is not a valid catalog carrying both `title`
and `url`, and succeeds only on mappings satisfying both conditions (the
constructed database holding exactly the given catalogs). -/
theorem c6_constructor_validation (tree : Tree) :
    (alookup "catalogs" tree = none → fromTree tree = .error .structural) ∧
    (∀ cats, alookup "catalogs" tree = some (.table cats) →
      ¬(cats.all (fun p => (catalogShape p.2).isSome) = true) →
      fromTree tree = .error .structural) ∧
    (∀ d, fromTree tree = .ok d →
      ∃ cats, alookup "catalogs" tree = some (.table cats) ∧
        cats.all (fun p => (catalogShape p.2).isSome) = true ∧
        d.catalogs = cats) := by
  refine ⟨?_, ?_, ?_⟩
  · intro h
    unfold fromTree
    rw [h]
  · intro cats h hbad
    unfold fromTree
    rw [h]
    dsimp only
    rw [if_neg hbad]
  · intro d h
    unfold fromTree at h
    cases hl : alookup "catalogs" tree with
    | none => rw [hl] at h; cases h
    | some tv =>
      rw [hl] at h
      cases tv with
      | leaf v => cases h
      | table cats =>
        dsimp only at h
        by_cases hall : cats.all (fun p => (catalogShape p.2).isSome) = true
        · rw [if_pos hall] at h
          refine ⟨cats, rfl, hall, ?_⟩
          cases h
          rfl
        · rw [if_neg hall] at h
          cases h

/-- C3: merging two databases whose versions differ always fails with the
version-mismatch error, and merging with an argument that is not a database
fails with the structural (not-a-database) error; being failures of a pure
operation, neither touches any catalog of either operand. -/
theorem c3_merge_version_and_type_errors (a b : VOSDatabase) (v : LeafVal) :
    (a.version ≠ b.version → merge a (.db b) = .error .versionMismatch) ∧
    merge a (.raw v) = .error .structural := by
  constructor
  · intro h
    unfold merge
    dsimp only
    rw [if_pos h]
  · rfl

/-- C2: merging two equal-version databases that share no catalog names and
no urls succeeds with a new database holding the catalogs of the first
followed by those of the second, whose `list_catalogs` output is the sorted
concatenation of the operands' `list_catalogs` outputs; the operands, never
written to by the pure `merge`, keep all their catalogs. -/
theorem c2_merge_disjoint_listing (a b : VOSDatabase)
    (hv : a.version = b.version)
    (hn : b.catalogs.all (fun p => (alookup p.1 a.catalogs).isNone) = true)
    (hu : b.catalogs.all
      (fun p => (catalogShape p.2).all (fun u => (urlNames a u).isEmpty)) = true) :
    ∃ m, merge a (.db b) = .ok m ∧
      m.catalogs = a.catalogs ++ b.catalogs ∧
      list_catalogs m = sortStrings (list_catalogs a ++ list_catalogs b) := by
  unfold merge
  dsimp only
  rw [if_neg (by simp [hv])]
  have hany1 : (b.catalogs.any (fun p => (alookup p.1 a.catalogs).isSome)) = false := by
    rw [List.any_eq_false]
    intro p hp
    have h := List.all_eq_true.mp hn p hp
    simp only [Option.isNone_iff_eq_none] at h
    simp [h]
  have hany2 : (b.catalogs.any
      (fun p => (catalogShape p.2).any (fun u => !(urlNames a u).isEmpty))) = false := by
    rw [List.any_eq_false]
    intro p hp
    have h := List.all_eq_true.mp hu p hp
    cases hs : catalogShape p.2 with
    | none => simp [Option.any]
    | some u =>
      rw [hs] at h
      simp only [Option.all_some] at h
      simp [Option.any, h]
  rw [if_neg (by simp [hany1]), if_neg (by simp [hany2])]
  refine ⟨_, rfl, rfl, ?_⟩
  unfold list_catalogs
  dsimp only
  rw [List.map_append, sortStrings_append]

theorem alookup_toTree_catalogs (d : VOSDatabase) :
    alookup "catalogs" (toTree d) = some (.table d.catalogs) := by
  unfold toTree
  simp [alookup]

theorem alookup_toTree_version (d : VOSDatabase) :
    alookup "__version__" (toTree d) = some (.leaf (.num d.version)) := by
  unfold toTree
  simp [alookup]

theorem alookup_toTree_content (d : VOSDatabase) :
    alookup "content" (toTree d) = d.content := by
  unfold toTree
  cases d.content with
  | none => simp [alookup]
  | some v => simp [alookup]

theorem alookup_setFile (fs : FileSys) (p : String) (t : Tree) :
    alookup p (setFile fs p t) = some t := by
  unfold setFile
  by_cases h : (alookup p fs).isSome
  · rw [if_pos h, alookup_map_if_self p (fun _ => t) fs]
    cases hl : alookup p fs with
    | none => rw [hl] at h; simp at h
    | some v => rfl
  · rw [if_neg h, alookup_append]
    cases hl : alookup p fs with
    | none => simp [alookup]
    | some v => rw [hl] at h; simp at h

/-- C7: writing a database to a path that already exists fails with the
persistence (file-exists) error unless `overwrite` is set, `to_json` with
`overwrite` always succeeds, and reading the written file back yields a
database whose `list_catalogs` and `list_catalogs_by_url` outputs are
identical to the original's. -/
theorem c7_to_json_roundtrip (d : VOSDatabase) (path : String) (fs : FileSys)
    (hvalid : d.catalogs.all (fun p => (catalogShape p.2).isSome) = true) :
    ((alookup path fs).isSome → to_json d path false fs = .error .persistence) ∧
    (∃ fs' d₂, to_json d path true fs = .ok fs' ∧ from_json path fs' = .ok d₂ ∧
      d₂.catalogs = d.catalogs ∧
      list_catalogs d₂ = list_catalogs d ∧
      list_catalogs_by_url d₂ = list_catalogs_by_url d) := by
  constructor
  · intro h
    unfold to_json
    rw [if_pos (by simp [h])]
  · refine ⟨setFile fs path (toTree d),
      { version := d.version, content := d.content, catalogs := d.catalogs,
        url_keys := buildIndex d.catalogs }, ?_, ?_, rfl, rfl, rfl⟩
    · unfold to_json
      rw [if_neg (by simp)]
    · unfold from_json
      rw [alookup_setFile]
      dsimp only
      unfold fromTree
      rw [alookup_toTree_catalogs]
      dsimp only
      rw [if_pos hvalid, alookup_toTree_version, alookup_toTree_content]

/-- C4: for every valid catalog, `delete_attribute` of `title` or `url`
always fails with the protected-key error (the catalog, being returned
nowhere, is untouched), while deleting any other key present in the catalog
succeeds, removes exactly that key, and leaves every other key — `title`
and `url` included — bound as before. -/
theorem c4_delete_attribute_protected (c : Catalog) (k : String) :
    ((k = "title" ∨ k = "url") → delete_attribute c k = .error .protectedKey) ∧
    ((c.map Prod.fst).Nodup → k ≠ "title" → k ≠ "url" →
      ∀ v, alookup k c = some v →
        delete_attribute c k = .ok (aerase k c) ∧
        alookup k (aerase k c) = none ∧
        ∀ k', k' ≠ k → alookup k' (aerase k c) = alookup k' c) := by
  constructor
  · intro hk
    simp [delete_attribute, hk]
  · intro hnd h1 h2 v hv
    have hcond : ¬(k = "title" ∨ k = "url") := by simp [h1, h2]
    refine ⟨?_, alookup_aerase_self c hnd, fun k' hk' => alookup_aerase_ne hk' c⟩
    simp [delete_attribute, hcond, hv]

/-- C4 witness: on the catalog from the test suite, deleting `title` fails
with the protected-key error and deleting `description` removes exactly
that key. -/
theorem c4_delete_attribute_protected_witness :
    delete_attribute (VOSCatalog.create "foo" "bar.foo"
        [("description", .str "test"), ("my_num", .num 100)]) "title"
      = .error .protectedKey ∧
    delete_attribute (VOSCatalog.create "foo" "bar.foo"
        [("description", .str "test"), ("my_num", .num 100)]) "description"
      = .ok (aerase "description" (VOSCatalog.create "foo" "bar.foo"
        [("description", .str "test"), ("my_num", .num 100)])) :=
  ⟨(c4_delete_attribute_protected _ "title").1 (Or.inl rfl),
   ((c4_delete_attribute_protected _ "description").2 (by decide)
      (by decide) (by decide) (.str "test") (by decide)).1⟩

/-- A two-catalog database mirroring the test suite's `basic.json` after one
addition: `foo` titled `bar` at `bar.foo`, and `new_cat` at `new_url`. -/
def exDB : VOSDatabase :=
  { version := 1, content := none,
    catalogs := [("foo", VOSCatalog.create "bar" "bar.foo" []),
                 ("new_cat", VOSCatalog.create "new_cat" "new_url" [])],
    url_keys := [("bar.foo", ["foo"]), ("new_url", ["new_cat"])] }

/-- A database in which two catalogs share the url `bar.foo`. -/
def exDBshared : VOSDatabase :=
  { version := 1, content := none,
    catalogs := [("foo", VOSCatalog.create "bar" "bar.foo" []),
                 ("bar", VOSCatalog.create "bar" "bar.foo" [])],
    url_keys := [("bar.foo", ["foo", "bar"])] }

/-- A second database sharing no names and no urls with `exDB`. -/
def exDBother : VOSDatabase :=
  { version := 1, content := none,
    catalogs := [("o_cat", VOSCatalog.create "o_title" "o_url" []),
                 ("o_cat2", VOSCatalog.create "o_title2" "o_url2" [])],
    url_keys := [("o_url", ["o_cat"]), ("o_url2", ["o_cat2"])] }

/-- A raw tree whose single catalog entry lacks `title` and `url`. -/
def exTreeBad : Tree := [("catalogs", .table [("foo", [("foo", .str "bar")])])]

/-- The raw tree of the test suite's `basic.json`. -/
def exTreeGood : Tree :=
  [("__version__", .leaf (.num 1)),
   ("catalogs", .table [("foo", VOSCatalog.create "bar" "bar.foo" [])]),
   ("content", .leaf (.strList ["A", "B", "C"]))]

/-- C1 witness: on the shared-url database, deleting by url `bar.foo`
removes only the first match `foo`, keeping `bar`. -/
theorem c1_delete_catalog_by_url_first_match_witness :
    (exDBshared.catalogs.map Prod.fst).Nodup ∧
    ∃ d', delete_catalog_by_url exDBshared "bar.foo" = .ok d' ∧
      d'.catalogs = aerase "foo" exDBshared.catalogs ∧
      d'.catalogs.length + 1 = exDBshared.catalogs.length ∧
      ∀ p ∈ exDBshared.catalogs, p.1 ≠ "foo" → p ∈ d'.catalogs :=
  ⟨by decide,
   (c1_delete_catalog_by_url_first_match exDBshared "bar.foo").1 (by decide)
     "foo" (VOSCatalog.create "bar" "bar.foo" []) (by decide)⟩

/-- C8 witness: deleting `new_cat`, the only catalog at `new_url`, keeps
the `new_url` key with an empty binding and `get_catalogs_by_url` then
yields the empty result. -/
theorem c8_delete_catalog_url_index_witness :
    ∃ d', delete_catalog exDB "new_cat" = .ok d' ∧
      d'.catalogs = aerase "new_cat" exDB.catalogs ∧
      alookup "new_url" d'.url_keys
        = (alookup "new_url" exDB.url_keys).map (fun l => l.erase "new_cat") ∧
      (alookup "new_url" exDB.url_keys = some ["new_cat"] →
        alookup "new_url" d'.url_keys = some [] ∧
        get_catalogs_by_url d' "new_url" = []) :=
  (c8_delete_catalog_url_index exDB "new_cat").1
    (VOSCatalog.create "new_cat" "new_url" []) "new_url" (by decide) (by decide)

/-- C5 witness: on `exDB`, re-adding `foo` fails with the duplicate-name
error, adding `foo3` at the taken url `bar.foo` fails with the
duplicate-url error, and `add_catalog_by_url` with the override succeeds
with both catalogs listed under `bar.foo`. -/
theorem c5_add_catalog_duplicate_rules_witness :
    add_catalog exDB "foo" (VOSCatalog.create "my_title" "my_url" []) false
      = .error .duplicateName ∧
    add_catalog exDB "foo3" (VOSCatalog.create "foo3" "bar.foo" []) false
      = .error .duplicateURL ∧
    ∃ d', add_catalog_by_url exDB "bar" "bar.foo" true = .ok d' ∧
      alookup "bar" d'.catalogs = some (VOSCatalog.create "bar" "bar.foo" []) ∧
      get_catalogs_by_url d' "bar.foo" =
        get_catalogs_by_url exDB "bar.foo"
          ++ [("bar", VOSCatalog.create "bar" "bar.foo" [])] :=
  ⟨(c5_add_catalog_duplicate_rules exDB "foo"
      (VOSCatalog.create "my_title" "my_url" []) "my_url").1 (by decide) false,
   (c5_add_catalog_duplicate_rules exDB "foo3"
      (VOSCatalog.create "foo3" "bar.foo" []) "bar.foo").2.1
      (by decide) (by decide) (by decide),
   (c5_add_catalog_duplicate_rules exDB "bar"
      (VOSCatalog.create "bar" "bar.foo" []) "bar.foo").2.2
      (by decide) (by decide)⟩

/-- C6 witness: the empty tree and a title-and-url-less catalog entry are
rejected structurally, and the constructor succeeds on `basic.json`'s tree,
whose single entry is valid. -/
theorem c6_constructor_validation_witness :
    fromTree ([] : Tree) = .error .structural ∧
    fromTree exTreeBad = .error .structural ∧
    ∃ cats, alookup "catalogs" exTreeGood = some (.table cats) ∧
      cats.all (fun p => (catalogShape p.2).isSome) = true ∧
      ({ version := 1, content := some (.leaf (.strList ["A", "B", "C"])),
         catalogs := [("foo", VOSCatalog.create "bar" "bar.foo" [])],
         url_keys := [("bar.foo", ["foo"])] } : VOSDatabase).catalogs = cats :=
  ⟨(c6_constructor_validation []).1 rfl,
   (c6_constructor_validation exTreeBad).2.1
     [("foo", [("foo", .str "bar")])] (by decide) (by decide),
   (c6_constructor_validation exTreeGood).2.2 _ rfl⟩

/-- C3 witness: merging `exDB` with a version-99 copy fails with the
version-mismatch error, and merging with a bare string fails with the
structural error. -/
theorem c3_merge_version_and_type_errors_witness :
    merge exDB (.db { exDB with version := 99 }) = .error .versionMismatch ∧
    merge exDB (.raw (.str "not_a_db")) = .error .structural :=
  ⟨(c3_merge_version_and_type_errors exDB { exDB with version := 99 }
      (.str "not_a_db")).1 (by decide),
   (c3_merge_version_and_type_errors exDB { exDB with version := 99 }
      (.str "not_a_db")).2⟩

/-- C2 witness: merging the disjoint databases `exDB` and `exDBother`
concatenates their catalogs and sorts the union of their listings. -/
theorem c2_merge_disjoint_listing_witness :
    ∃ m, merge exDB (.db exDBother) = .ok m ∧
      m.catalogs = exDB.catalogs ++ exDBother.catalogs ∧
      list_catalogs m = sortStrings (list_catalogs exDB ++ list_catalogs exDBother) :=
  c2_merge_disjoint_listing exDB exDBother (by decide) (by decide) (by decide)

/-- C7 witness: writing `exDB` over an existing file fails without the
overwrite flag, and with it the reload reproduces both listings. -/
theorem c7_to_json_roundtrip_witness :
    to_json exDB "out.json" false [("out.json", toTree exDB)]
      = .error .persistence ∧
    (∃ fs' d₂, to_json exDB "out.json" true [("out.json", toTree exDB)] = .ok fs' ∧
      from_json "out.json" fs' = .ok d₂ ∧
      d₂.catalogs = exDB.catalogs ∧
      list_catalogs d₂ = list_catalogs exDB ∧
      list_catalogs_by_url d₂ = list_catalogs_by_url exDB) :=
  ⟨(c7_to_json_roundtrip exDB "out.json" [("out.json", toTree exDB)]
      (by decide)).1 (by decide),
   (c7_to_json_roundtrip exDB "out.json" [("out.json", toTree exDB)]
      (by decide)).2⟩

end VOS

namespace SRCNet

theorem isSome_of_truthy {o : Option ℚ} (h : truthy o = true) : o.isSome := by
  cases o with
  | none => simp [truthy] at h
  | some x => rfl

/-- C9 counterexample: with `radius` provided as `0.0` together with a
width and no height, `query_region` does not take the circular search path
without error, as the claim states; it raises the undefined-search-area
error, because the source tests Python truthiness (`if radius:`) rather
than presence. -/
theorem c9_counterexample :
    query_region (some 0) (some 1) none = .undefinedError := by decide

/-- C9 (amended): the ambiguous-search-area error is raised only when
`radius`, `width` and `height` are all provided (indeed all truthy); when
`radius` is provided with a non-zero (truthy) value together with `width`
but without `height`, or with `height` but without `width`, no error is
raised and the circular search path is taken; and when no radius and not
both of `width` and `height` are provided, the undefined-search-area error
is raised. -/
theorem c9_query_region_dispatch (rad wid hei : Option ℚ) :
    (query_region rad wid hei = .ambiguousError →
      rad.isSome ∧ wid.isSome ∧ hei.isSome) ∧
    (truthy rad = true → wid.isSome → hei = none →
      query_region rad wid hei = .circleQuery (60 * rad.getD 0)) ∧
    (truthy rad = true → hei.isSome → wid = none →
      query_region rad wid hei = .circleQuery (60 * rad.getD 0)) ∧
    (rad = none → ¬(wid.isSome ∧ hei.isSome) →
      query_region rad wid hei = .undefinedError) := by
  refine ⟨?_, ?_, ?_, ?_⟩
  · intro hres
    by_cases hc : (truthy rad && truthy wid && truthy hei) = true
    · simp only [Bool.and_eq_true] at hc
      exact ⟨isSome_of_truthy hc.1.1, isSome_of_truthy hc.1.2,
             isSome_of_truthy hc.2⟩
    · exfalso
      unfold query_region at hres
      rw [if_neg hc] at hres
      by_cases h2 : truthy rad = true
      · rw [if_pos h2] at hres
        exact QueryRegionResult.noConfusion hres
      · rw [if_neg h2] at hres
        by_cases h3 : (truthy wid && truthy hei) = true
        · rw [if_pos h3] at hres
          exact QueryRegionResult.noConfusion hres
        · rw [if_neg h3] at hres
          exact QueryRegionResult.noConfusion hres
  · intro htr _ hnone
    subst hnone
    unfold query_region
    have hc : (truthy rad && truthy wid && truthy none) = false := by
      simp [truthy]
    rw [if_neg (by simp [hc]), if_pos htr]
  · intro htr _ hnone
    subst hnone
    unfold query_region
    have hc : (truthy rad && truthy none && truthy hei) = false := by
      simp [truthy]
    rw [if_neg (by simp [hc]), if_pos htr]
  · intro hrnone hnb
    subst hrnone
    unfold query_region
    have h1 : truthy none = false := rfl
    have h3 : (truthy wid && truthy hei) = false := by
      cases hw : truthy wid with
      | false => simp
      | true =>
        cases hh : truthy hei with
        | false => simp
        | true =>
          exact absurd ⟨isSome_of_truthy hw, isSome_of_truthy hh⟩ hnb
    rw [if_neg (by simp [h1]), if_neg (by simp [h1]), if_neg (by simp [h3])]

/-- C9 witness: a truthy radius of one degree with a width and no height
takes the circular path with a 60-arcmin radius. -/
theorem c9_query_region_dispatch_witness :
    query_region (some 1) (some 1) none = .circleQuery 60 := by
  have h := (c9_query_region_dispatch (some 1) (some 1) none).2.1
    (by decide) (by decide) rfl
  simpa using h

/-- C10: after construction and after every sequence of assignments to the
`access_token` property, the instance's session carries an `Authorization`
header exactly equal to `Bearer ` followed by the (rendered) current access
token — the header never goes out of sync with the stored token. -/
theorem c10_session_header_synced (tok rtok : Option String)
    (updates : List (Option String)) :
    authSynced (updates.foldl set_access_token (srcnetInit tok rtok)) := by
  have step : ∀ (us : List (Option String)) (s : SRCNetState), authSynced s →
      authSynced (us.foldl set_access_token s) := by
    intro us
    induction us with
    | nil => intro s hs; exact hs
    | cons u rest ih => intro s _; exact ih _ rfl
  exact step updates _ rfl

end SRCNet
